import Mathlib

/-!
Verification of the streaming review-summarizer popup (`popup.js`).

Strings from the JavaScript source are embedded as `List Char` (JS strings
are sequences of UTF-16 code units; every character appearing in this
development is a plain BMP character, where the two notions coincide).
The popup's pure, algorithmic parts — URL classification (`getPageInfo`),
the SSE stream decoding loop inside `createSummarizeButton`, the renderer
`displaySummaryStream`, review-list truncation in `displayReviews` — are
translated directly; the surrounding browser effects (DOM nodes, `fetch`,
`chrome.storage`) are represented by explicit state records and an
environment describing the outcome of each external call.
-/

namespace ReviewSummarizer

/-- Whitespace for the JavaScript `String.prototype.trim` used by
`popup.js` (space, tab, line terminators, NBSP, BOM, vertical tab, form
feed — the `WhiteSpace`/`LineTerminator` productions restricted to the
characters that can actually reach this code). -/
def isJsWs (c : Char) : Bool :=
  c = ' ' ∨ c = '\t' ∨ c = '\n' ∨ c = '\r' ∨ c = '\x0b' ∨ c = '\x0c' ∨
  c = ' ' ∨ c = '﻿'

/-- Leading-whitespace removal (`trimStart` part of JS `trim`). -/
def trimLeft (cs : List Char) : List Char := cs.dropWhile isJsWs

/-- Trailing-whitespace removal (`trimEnd` part of JS `trim`). -/
def trimRight (cs : List Char) : List Char :=
  (cs.reverse.dropWhile isJsWs).reverse

/-- JS `String.prototype.trim`. -/
def jsTrim (cs : List Char) : List Char := trimRight (trimLeft cs)

/-- JS `String.prototype.split('\n')`: splits on every newline, keeping
empty segments; `"".split('\n')` is `[""]`. -/
def splitNl : List Char → List (List Char)
  | [] => [[]]
  | c :: rest =>
    if c = '\n' then [] :: splitNl rest
    else
      match splitNl rest with
      | l :: ls => (c :: l) :: ls
      | [] => [[c]]

/-- The characters `[A-Z0-9]` of the ASIN capture groups in
`REVIEW_PAGE_REGEX` and `PRODUCT_PAGE_REGEX`. -/
def isAsinChar (c : Char) : Bool := c.isUpper ∨ c.isDigit

/-- Page categories produced by `getPageInfo` (the strings `'review'`,
`'product'`, `'other'` in the source). -/
inductive PageType where
  | review
  | product
  | other
deriving DecidableEq, Repr

/-- Result of `getPageInfo`: `{ type, asin }`. -/
structure PageInfo where
  type : PageType
  asin : Option (List Char)
deriving DecidableEq, Repr

/-- The literal part of `REVIEW_PAGE_REGEX`:
`^https:\/\/www\.amazon\.com\/product-reviews\/`. -/
def reviewUrlBase : List Char := "https://www.amazon.com/product-reviews/".data

/-- The literal part of `PRODUCT_PAGE_REGEX` before `.*`:
`^https:\/\/www\.amazon\.com\/`. -/
def siteBase : List Char := "https://www.amazon.com/".data

/-- `([A-Z0-9]{10})` at the current position: succeeds iff at least ten
characters follow and the first ten are uppercase alphanumerics, capturing
exactly those ten (the regexes are unanchored on the right, so further
characters — even further alphanumerics — are irrelevant). -/
def matchTenAsin (cs : List Char) : Option (List Char) :=
  let id := cs.take 10
  if id.length = 10 ∧ id.all isAsinChar then some id else none

/-- `url.match(REVIEW_PAGE_REGEX)`: the capture group, if the regex
matches. -/
def reviewMatch (url : List Char) : Option (List Char) :=
  if reviewUrlBase.isPrefixOf url then matchTenAsin (url.drop reviewUrlBase.length)
  else none

/-- Line terminators, which `.` in a JS regex does not match. -/
def isLineTerm (c : Char) : Bool :=
  c = '\n' ∨ c = '\r' ∨ c = ' ' ∨ c = ' '

/-- `\/dp\/([A-Z0-9]{10})` anchored at the current position. -/
def dpHere (cs : List Char) : Option (List Char) :=
  if "/dp/".data.isPrefixOf cs then matchTenAsin (cs.drop 4) else none

/-- The `.*\/dp\/([A-Z0-9]{10})` suffix of `PRODUCT_PAGE_REGEX`: the
greedy `.*` consumes as much as possible (never across a line
terminator), so the capture comes from the rightmost feasible `/dp/`
occurrence. -/
def productScan : List Char → Option (List Char)
  | [] => none
  | c :: rest =>
    let here := dpHere (c :: rest)
    if isLineTerm c then here
    else
      match productScan rest with
      | some id => some id
      | none => here

/-- `url.match(PRODUCT_PAGE_REGEX)`: the capture group, if the regex
matches. -/
def productMatch (url : List Char) : Option (List Char) :=
  if siteBase.isPrefixOf url then productScan (url.drop siteBase.length)
  else none

/-- `getPageInfo` from `popup.js`: try the review regex first, then the
product regex, else `{ type: 'other', asin: null }`. -/
def getPageInfo (url : List Char) : PageInfo :=
  match reviewMatch url with
  | some asin => ⟨.review, some asin⟩
  | none =>
    match productMatch url with
    | some asin => ⟨.product, some asin⟩
    | none => ⟨.other, none⟩

/-! ## JSON values and `JSON.parse`

The stream loop calls the host's `JSON.parse` on each frame payload and
reads `parsed.choices?.[0]?.delta?.content`.  The parser below follows the
JSON grammar that `JSON.parse` accepts (RFC 8259): values are objects,
arrays, strings with the standard escapes, numbers, `true`, `false`,
`null`; insignificant whitespace is space, tab, newline, carriage return;
the whole input must be consumed.  Numeric tokens are kept verbatim
(no claim depends on numeric values).  A lone `\u` surrogate half decodes
to NUL here where JS would keep the raw code unit — unreachable from any
statement below. -/

inductive JVal where
  | jnull
  | jbool (b : Bool)
  | jnum (raw : List Char)
  | jstr (s : List Char)
  | jarr (elems : List JVal)
  | jobj (fields : List (List Char × JVal))

/-- JSON insignificant whitespace (RFC 8259 §2). -/
def isJsonWs (c : Char) : Bool :=
  c = ' ' ∨ c = '\t' ∨ c = '\n' ∨ c = '\r'

def skipWs (cs : List Char) : List Char := cs.dropWhile isJsonWs

def hexVal (c : Char) : Option Nat :=
  if c.isDigit then some (c.toNat - '0'.toNat)
  else if 'a' ≤ c ∧ c ≤ 'f' then some (c.toNat - 'a'.toNat + 10)
  else if 'A' ≤ c ∧ c ≤ 'F' then some (c.toNat - 'A'.toNat + 10)
  else none

/-- Body of a JSON string after the opening quote; returns the decoded
characters and the input after the closing quote.  Raw control characters
are rejected, escapes are decoded. -/
def strBody : Nat → List Char → Option (List Char × List Char)
  | 0, _ => none
  | _, [] => none
  | fuel + 1, c :: rest =>
    if c = '"' then some ([], rest)
    else if c = '\\' then
      match rest with
      | [] => none
      | e :: rest2 =>
        let esc : Option (Char × List Char) :=
          if e = '"' then some ('"', rest2)
          else if e = '\\' then some ('\\', rest2)
          else if e = '/' then some ('/', rest2)
          else if e = 'b' then some ('\x08', rest2)
          else if e = 'f' then some ('\x0c', rest2)
          else if e = 'n' then some ('\n', rest2)
          else if e = 'r' then some ('\r', rest2)
          else if e = 't' then some ('\t', rest2)
          else if e = 'u' then
            match rest2 with
            | h1 :: h2 :: h3 :: h4 :: rest3 =>
              match hexVal h1, hexVal h2, hexVal h3, hexVal h4 with
              | some a, some b, some c2, some d =>
                some (Char.ofNat (((a * 16 + b) * 16 + c2) * 16 + d), rest3)
              | _, _, _, _ => none
            | _ => none
          else none
        match esc with
        | some (d, rem) =>
          match strBody fuel rem with
          | some (s, r) => some (d :: s, r)
          | none => none
        | none => none
    else if c.toNat < 32 then none
    else
      match strBody fuel rest with
      | some (s, r) => some (c :: s, r)
      | none => none

/-- Lex one JSON number token (`-? int frac? exp?`), kept verbatim.
Lexing is lenient at the right edge (a stray trailing `.` or `e` is left
in the remainder), where the surrounding grammar then rejects it, which
matches `JSON.parse` failing on such inputs. -/
def numTok (cs : List Char) : Option (List Char × List Char) :=
  let sg : List Char × List Char :=
    match cs with
    | '-' :: r => (['-'], r)
    | _ => ([], cs)
  let ip : Option (List Char × List Char) :=
    match sg.2 with
    | '0' :: r => some (['0'], r)
    | c :: r =>
      if c.isDigit then some (c :: r.takeWhile Char.isDigit, r.dropWhile Char.isDigit)
      else none
    | [] => none
  match ip with
  | none => none
  | some (ipart, cs2) =>
    let fp : List Char × List Char :=
      match cs2 with
      | '.' :: r =>
        if (r.takeWhile Char.isDigit).isEmpty then ([], cs2)
        else ('.' :: r.takeWhile Char.isDigit, r.dropWhile Char.isDigit)
      | _ => ([], cs2)
    let ep : List Char × List Char :=
      match fp.2 with
      | e :: r =>
        if e = 'e' ∨ e = 'E' then
          let es : List Char × List Char :=
            match r with
            | '+' :: rr => (['+'], rr)
            | '-' :: rr => (['-'], rr)
            | _ => ([], r)
          if (es.2.takeWhile Char.isDigit).isEmpty then ([], fp.2)
          else (e :: (es.1 ++ es.2.takeWhile Char.isDigit), es.2.dropWhile Char.isDigit)
        else ([], fp.2)
      | [] => ([], fp.2)
    some (sg.1 ++ ipart ++ fp.1 ++ ep.1, ep.2)

mutual

/-- One JSON value, with leading whitespace, returning the remainder. -/
def jsonVal : Nat → List Char → Option (JVal × List Char)
  | 0, _ => none
  | fuel + 1, cs =>
    match skipWs cs with
    | [] => none
    | '"' :: rest =>
      match strBody (rest.length + 1) rest with
      | some (s, r) => some (.jstr s, r)
      | none => none
    | '\x7b' :: rest =>
      match skipWs rest with
      | '\x7d' :: r => some (.jobj [], r)
      | _ =>
        match jsonFields fuel rest with
        | some (fs, r) => some (.jobj fs, r)
        | none => none
    | '[' :: rest =>
      match skipWs rest with
      | ']' :: r => some (.jarr [], r)
      | _ =>
        match jsonElems fuel rest with
        | some (vs, r) => some (.jarr vs, r)
        | none => none
    | 't' :: rest =>
      if "rue".data.isPrefixOf rest then some (.jbool true, rest.drop 3) else none
    | 'f' :: rest =>
      if "alse".data.isPrefixOf rest then some (.jbool false, rest.drop 4) else none
    | 'n' :: rest =>
      if "ull".data.isPrefixOf rest then some (.jnull, rest.drop 3) else none
    | other =>
      match numTok other with
      | some (raw, r) => some (.jnum raw, r)
      | none => none

/-- Comma-separated array elements up to the closing bracket. -/
def jsonElems : Nat → List Char → Option (List JVal × List Char)
  | 0, _ => none
  | fuel + 1, cs =>
    match jsonVal fuel cs with
    | none => none
    | some (v, rest) =>
      match skipWs rest with
      | ',' :: r2 =>
        match jsonElems fuel r2 with
        | some (vs, r3) => some (v :: vs, r3)
        | none => none
      | ']' :: r2 => some ([v], r2)
      | _ => none

/-- Comma-separated object members up to the closing brace. -/
def jsonFields : Nat → List Char → Option (List (List Char × JVal) × List Char)
  | 0, _ => none
  | fuel + 1, cs =>
    match skipWs cs with
    | '"' :: rest =>
      match strBody (rest.length + 1) rest with
      | none => none
      | some (key, r1) =>
        match skipWs r1 with
        | ':' :: r2 =>
          match jsonVal fuel r2 with
          | none => none
          | some (v, r3) =>
            match skipWs r3 with
            | ',' :: r4 =>
              match jsonFields fuel r4 with
              | some (fs, r5) => some ((key, v) :: fs, r5)
              | none => none
            | '\x7d' :: r4 => some ([(key, v)], r4)
            | _ => none
        | _ => none
    | _ => none

end

/-- `JSON.parse`: one value, and nothing but trailing whitespace after it;
`none` models the thrown `SyntaxError`. -/
def parseJson (cs : List Char) : Option JVal :=
  match jsonVal (2 * cs.length + 2) cs with
  | some (v, rest) => if (skipWs rest).isEmpty then some v else none
  | none => none

/-! ## Property extraction and JS truthiness

`parsed.choices?.[0]?.delta?.content`, then `if (content)`. -/

/-- Object member lookup with `JSON.parse`'s duplicate-key semantics
(the last occurrence of a repeated key wins). -/
def jLookup (key : List Char) : List (List Char × JVal) → Option JVal
  | [] => none
  | (k, v) :: rest =>
    match jLookup key rest with
    | some r => some r
    | none => if k = key then some v else none

/-- JS property read `v.name`: a member on objects, `undefined` (`none`)
on everything else (on `null` the source expression throws a `TypeError`,
which the enclosing `try` absorbs exactly like a skipped frame, so `none`
is observationally the same). -/
def jField (v : JVal) (key : List Char) : Option JVal :=
  match v with
  | .jobj fs => jLookup key fs
  | _ => none

/-- JS indexing `v?.[0]`: first element of an array, member `"0"` of an
object, first code unit of a string, otherwise `undefined`. -/
def jIndex0 : JVal → Option JVal
  | .jarr (x :: _) => some (x : JVal)
  | .jobj fs => jLookup "0".data fs
  | .jstr (c :: _) => some (.jstr [c])
  | _ => none

/-- `parsed.choices?.[0]?.delta?.content` (each `?.` short-circuits on
`null`/`undefined`, which `none` and `some .jnull` reproduce through
`jField`/`jIndex0` returning `none` on `.jnull`). -/
def contentField (v : JVal) : Option JVal :=
  match jField v "choices".data with
  | none => none
  | some c =>
    match jIndex0 c with
    | none => none
    | some c0 =>
      match jField c0 "delta".data with
      | none => none
      | some d => jField d "content".data

/-- Is a number token the number zero (sign and exponent are irrelevant;
`JSON.parse` cannot produce `NaN`)? -/
def numIsZero (raw : List Char) : Bool :=
  let noSign := match raw with
    | '-' :: r => r
    | _ => raw
  (noSign.takeWhile (fun c => c ≠ 'e' ∧ c ≠ 'E')).all (fun c => c = '0' ∨ c = '.')

/-- JS truthiness of a JSON value, for the `if (content)` guard. -/
def jTruthy : JVal → Bool
  | .jnull => false
  | .jbool b => b
  | .jnum raw => !(numIsZero raw)
  | .jstr s => !s.isEmpty
  | .jarr _ => true
  | .jobj _ => true

/-- JS string coercion of the value handed to `displaySummaryStream`.
Exact for strings, booleans and `null` — the only shapes any statement
below evaluates; number formatting is approximated by the verbatim token
and array/object coercion by their usual `toString` results. -/
def jToStr : JVal → List Char
  | .jstr s => s
  | .jbool true => "true".data
  | .jbool false => "false".data
  | .jnull => "null".data
  | .jnum raw => raw
  | .jarr _ => []
  | .jobj _ => "[object Object]".data

/-! ## The incremental renderer `displaySummaryStream`

The source sets `tempDiv.innerHTML = chunk` and splices the resulting
child nodes into the summary area, so what the surface ultimately
displays is the TEXT CONTENT of the chunk parsed as an HTML fragment:
tags become elements (contributing only their inner text) and character
references are decoded.  `htmlToText` models that text content for the
fragment of HTML this data can exercise: the parser's input-stream
preprocessing first normalizes CRLF and lone CR to LF; then markup
between matching angle brackets is dropped (an unterminated tag
swallows the rest, as the fragment parser does), the four standard
named references are decoded, a bare ampersand is kept literally, and a
U+0000 character token is ignored by in-body tree construction. -/

def dropTag : List Char → List Char
  | [] => []
  | c :: rest => if c = '>' then rest else dropTag rest

/-- Input-stream preprocessing of the HTML parser: before tokenization
every CRLF pair and every lone CR in the input is normalized to a
single LF. -/
def normNewlines : List Char → List Char
  | [] => []
  | c :: rest =>
    if c = '\r' then
      match rest with
      | [] => ['\n']
      | d :: rest2 =>
        if d = '\n' then '\n' :: normNewlines rest2
        else '\n' :: normNewlines (d :: rest2)
    else c :: normNewlines rest

/-- Fuel-driven worker for `htmlToText`, run on the normalized input;
every step consumes at least one input character, so fuel equal to the
input length never runs out.  A U+0000 character token is ignored by the
"in body" tree construction, so it contributes no text. -/
def htmlToTextAux : Nat → List Char → List Char
  | 0, _ => []
  | _, [] => []
  | fuel + 1, c :: rest =>
    if c = '<' then htmlToTextAux fuel (dropTag rest)
    else if c = '&' then
      if "amp;".data.isPrefixOf rest then '&' :: htmlToTextAux fuel (rest.drop 4)
      else if "lt;".data.isPrefixOf rest then '<' :: htmlToTextAux fuel (rest.drop 3)
      else if "gt;".data.isPrefixOf rest then '>' :: htmlToTextAux fuel (rest.drop 3)
      else if "quot;".data.isPrefixOf rest then '"' :: htmlToTextAux fuel (rest.drop 5)
      else '&' :: htmlToTextAux fuel rest
    else if c = '\x00' then htmlToTextAux fuel rest
    else c :: htmlToTextAux fuel rest

def htmlToText (l : List Char) : List Char :=
  htmlToTextAux (normNewlines l).length (normNewlines l)

/-- The summary output surface (`summaryOutputDiv`): its CSS visibility
and the text content accumulated from appended nodes. -/
structure Surface where
  visible : Bool
  text : List Char
deriving DecidableEq, Repr

/-- A just-created surface is hidden and empty (`display: none`). -/
def freshSurface : Surface := ⟨false, []⟩

/-- `displaySummaryStream(chunk, isFirstChunk)` acting on the optional
pre-existing surface: create it hidden if absent, clear and show it on
the first chunk, then append the chunk parsed as HTML. -/
def displaySummaryStream (chunk : List Char) (isFirstChunk : Bool)
    (s : Option Surface) : Surface :=
  let d := s.getD freshSurface
  let d : Surface := if isFirstChunk then ⟨true, []⟩ else d
  ⟨d.visible, d.text ++ htmlToText chunk⟩

/-- Text of an optional surface (an absent surface displays nothing). -/
def surfText (s : Option Surface) : List Char :=
  match s with
  | some d => d.text
  | none => []

/-- Replay a list of `(chunk, isFirstChunk)` renderer invocations. -/
def runRender (calls : List (List Char × Bool)) (s : Option Surface) :
    Option Surface :=
  calls.foldl (fun acc c => some (displaySummaryStream c.1 c.2 acc)) s

/-! ## The SSE stream decoding loop

Lines 179–201 of `popup.js`: each chunk is split on newlines, lines whose
trimmed form starts with `data:` are kept, each kept line is cut after
its first five characters and trimmed, the `[DONE]` sentinel breaks out
of the per-chunk frame loop, every other payload goes through
`JSON.parse` inside a `try` whose `catch` only logs, and a truthy
`choices?.[0]?.delta?.content` is rendered with the running `isFirst`
flag. -/

def dataMarker : List Char := "data:".data

def doneToken : List Char := "[DONE]".data

/-- The filter `line => line.trim().startsWith('data:')`. -/
def retainLine (line : List Char) : Bool := dataMarker.isPrefixOf (jsTrim line)

/-- `chunk.split('\n').filter(line => line.trim().startsWith('data:'))`. -/
def retainedLines (chunk : List Char) : List (List Char) :=
  (splitNl chunk).filter retainLine

/-- `line.substring(5).trim()` — the payload handed to `JSON.parse`. -/
def lineJsonStr (line : List Char) : List Char := jsTrim (line.drop 5)

/-- What one non-sentinel payload contributes: the rendered text if
`JSON.parse` succeeds and `choices?.[0]?.delta?.content` is truthy,
`none` when the frame is malformed (the `catch` swallows it) or carries
no truthy content. -/
def payloadContent (p : List Char) : Option (List Char) :=
  match parseJson p with
  | none => none
  | some v =>
    match contentField v with
    | none => none
    | some c => if jTruthy c then some (jToStr c) else none

/-- The per-chunk `for (const line of lines)` loop: emits the renderer
invocations it performs, threading `isFirst`, and stopping at the
`[DONE]` sentinel (a `break` that leaves only this inner loop). -/
def processLines : Bool → List (List Char) → List (List Char × Bool) × Bool
  | isF, [] => ([], isF)
  | isF, line :: rest =>
    if lineJsonStr line = doneToken then ([], isF)
    else
      match payloadContent (lineJsonStr line) with
      | some c =>
        let r := processLines false rest
        ((c, isF) :: r.1, r.2)
      | none => processLines isF rest

/-- The outer `while (true)` read loop over the decoded chunks. -/
def decodeChunks : Bool → List (List Char) → List (List Char × Bool)
  | _, [] => []
  | isF, ch :: rest =>
    let r := processLines isF (retainedLines ch)
    r.1 ++ decodeChunks r.2 rest

/-- All renderer invocations the stream loop performs on a stream of
decoded chunks (`isFirst` starts `true`). -/
def decodeStream (chunks : List (List Char)) : List (List Char × Bool) :=
  decodeChunks true chunks

/-- Modelled from the spec (§4.3 steps 2–3), for comparison with
`lineJsonStr`: the payload of a retained line is "that line with the
marker stripped and surrounding whitespace trimmed" — leading whitespace
goes, the `data:` marker is stripped, the remainder is trimmed. -/
def specLinePayload (line : List Char) : List Char :=
  let t := trimLeft line
  jsTrim (if dataMarker.isPrefixOf t then t.drop 5 else t)

/-! ## Review list rendering (`displayReviews`) -/

/-- Text of one review list entry:
`review.substring(0, 100) + (review.length > 100 ? '...' : '')`. -/
def reviewItemText (review : List Char) : List Char :=
  review.take 100 ++ (if 100 < review.length then "...".data else [])

/-- The texts of the per-review list entries: `reviews.slice(0, 5)`
mapped through the truncation (the trailing "... and N more." entry,
present when more than five reviews exist, carries no review text and is
not modelled). -/
def displayReviewItems (reviews : List (List Char)) : List (List Char) :=
  (reviews.take 5).map reviewItemText

/-! ## The summarize-button click handler

The handler is single-threaded and every external call is represented by
its outcome in an `Env`: whether `window.allReviews` is populated, what
`getApiKey` resolves to, and how the `fetch` turns out.  The `RunState`
records every write to the button's `disabled`/`textContent`, the last
popup status message, the renderer invocations, how many network
requests were issued, and whether an exception escaped the handler.

One behaviour is worth flagging: `let isFirst` is declared inside the
`try` block, so the `catch` block's reference to it throws a
`ReferenceError` before either of its reporting calls run; the `finally`
block still executes, after which the `ReferenceError` escapes the
handler as an unhandled rejection. -/

def idleLabel : List Char := "Summarize Reviews".data

def busyLabel : List Char := "Summarizing...".data

def noReviewsMsg : List Char := "Error: No reviews found to summarize.".data

def keyMissingMsg : List Char :=
  "Error: OpenAI API key not set. Please configure it via extension options.".data

def startedMsg : List Char := "Summarization started...".data

/-- Outcome of the `fetch` call: rejection (network error), or a
response with its `ok` flag and optional readable body given as the
decoded chunks the reader delivers. -/
inductive FetchOutcome where
  | netErr (msg : List Char)
  | resp (ok : Bool) (body : Option (List (List Char)))

/-- The handler's environment: `window.allReviews` (absent or a list),
the credential `getApiKey` resolves to, and the fetch outcome. -/
structure Env where
  allReviews : Option (List (List Char))
  apiKey : Option (List Char)
  fetch : FetchOutcome

/-- The guard `window.allReviews && window.allReviews.length > 0`. -/
def hasReviews (e : Env) : Bool :=
  match e.allReviews with
  | some rs => 0 < rs.length
  | none => false

/-- Observable trace and final UI state of one click-handler run. -/
structure RunState where
  disabledWrites : List Bool
  labelWrites : List (List Char)
  popupText : Option (List Char)
  renderCalls : List (List Char × Bool)
  fetchCount : Nat
  uncaught : Bool
deriving Repr

def initialRun : RunState := ⟨[], [], none, [], 0, false⟩

def setDisabled (b : Bool) (s : RunState) : RunState :=
  { s with disabledWrites := s.disabledWrites ++ [b] }

def setLabel (l : List Char) (s : RunState) : RunState :=
  { s with labelWrites := s.labelWrites ++ [l] }

def setPopup (t : List Char) (s : RunState) : RunState :=
  { s with popupText := some t }

def renderCall (c : List Char × Bool) (s : RunState) : RunState :=
  { s with renderCalls := s.renderCalls ++ [c] }

/-- The `try`/`catch` section (lines 153–208): issue the fetch; a
rejected fetch, a non-2xx response, or a missing body reaches the
`catch`, whose `ReferenceError` on the try-scoped `isFirst` aborts its
reporting and escapes; a readable body drives the stream loop. -/
def tryStream (e : Env) (s : RunState) : RunState :=
  let s := { s with fetchCount := s.fetchCount + 1 }
  match e.fetch with
  | .netErr _ => { s with uncaught := true }
  | .resp ok body =>
    if ok then
      match body with
      | none => { s with uncaught := true }
      | some chunks => { s with renderCalls := s.renderCalls ++ decodeStream chunks }
    else { s with uncaught := true }

/-- The `finally` block (lines 209–212): re-enable the button, restore
its idle label.  Runs on every path out of the `try`/`catch`, including
the `catch`'s own `ReferenceError`. -/
def finallyRestore (s : RunState) : RunState :=
  setLabel idleLabel (setDisabled false s)

/-- The whole click listener (lines 133–218). -/
def clickHandler (e : Env) : RunState :=
  if hasReviews e then
    let s := setDisabled true initialRun
    let s := setLabel busyLabel s
    let s := renderCall ([], true) s
    match e.apiKey with
    | none =>
      let s := setPopup keyMissingMsg s
      setLabel idleLabel (setDisabled false s)
    | some _ =>
      let s := setPopup startedMsg s
      finallyRestore (tryStream e s)
  else
    setPopup noReviewsMsg initialRun

/-- The button's final `disabled` state (created enabled). -/
def finalDisabled (s : RunState) : Bool := (s.disabledWrites.getLast?).getD false

/-- The button's final label (created with the idle label). -/
def finalLabel (s : RunState) : List Char := (s.labelWrites.getLast?).getD idleLabel

/-! ## Helper lemmas -/

theorem splitNl_append_cons (l rest : List Char) (h : '\n' ∉ l) :
    splitNl (l ++ '\n' :: rest) = l :: splitNl rest := by
  induction l with
  | nil => simp [splitNl]
  | cons c cs ih =>
    have hc : c ≠ '\n' := fun hcn => h (hcn ▸ List.mem_cons_self c cs)
    have hcs : '\n' ∉ cs := fun hm => h (List.mem_cons_of_mem c hm)
    have ih' : splitNl (cs.append ('\n' :: rest)) = cs :: splitNl rest := ih hcs
    simp only [List.cons_append, splitNl, if_neg hc, ih']

theorem splitNl_no_nl (l : List Char) (h : '\n' ∉ l) : splitNl l = [l] := by
  induction l with
  | nil => rfl
  | cons c cs ih =>
    have hc : c ≠ '\n' := fun hcn => h (hcn ▸ List.mem_cons_self c cs)
    have hcs : '\n' ∉ cs := fun hm => h (List.mem_cons_of_mem c hm)
    simp only [splitNl, if_neg hc, ih hcs]

theorem finalDisabled_restore (s : RunState) :
    finalDisabled (setLabel idleLabel (setDisabled false s)) = false := by
  simp [finalDisabled, setLabel, setDisabled, List.getLast?_concat]

theorem finalLabel_restore (s : RunState) :
    finalLabel (setLabel idleLabel (setDisabled false s)) = idleLabel := by
  simp [finalLabel, setLabel, setDisabled, List.getLast?_concat]

theorem normNewlines_of_no_cr (l : List Char) (h : '\r' ∉ l) :
    normNewlines l = l := by
  induction l with
  | nil => rfl
  | cons c cs ih =>
    have hc : c ≠ '\r' := fun hcr => h (hcr ▸ List.mem_cons_self c cs)
    have hcs : '\r' ∉ cs := fun hm => h (List.mem_cons_of_mem c hm)
    rw [normNewlines.eq_def]
    simp [hc, ih hcs]

theorem htmlToTextAux_of_plain (fuel : Nat) (l : List Char)
    (hf : l.length ≤ fuel) (h : ∀ c ∈ l, c ≠ '<' ∧ c ≠ '&' ∧ c ≠ '\x00') :
    htmlToTextAux fuel l = l := by
  induction fuel generalizing l with
  | zero =>
    cases l with
    | nil => rfl
    | cons c cs => exact absurd hf (by simp)
  | succ n ih =>
    cases l with
    | nil => rfl
    | cons c cs =>
      have hc := h c (List.mem_cons_self c cs)
      have hcs : ∀ c ∈ cs, c ≠ '<' ∧ c ≠ '&' ∧ c ≠ '\x00' :=
        fun x hx => h x (List.mem_cons_of_mem c hx)
      have hlen : cs.length ≤ n := by simpa using hf
      simp only [htmlToTextAux, if_neg hc.1, if_neg hc.2.1, if_neg hc.2.2,
        ih cs hlen hcs]

theorem htmlToText_of_plain (l : List Char)
    (h : ∀ c ∈ l, c ≠ '<' ∧ c ≠ '&' ∧ c ≠ '\r' ∧ c ≠ '\x00') :
    htmlToText l = l := by
  have hn : normNewlines l = l :=
    normNewlines_of_no_cr l (fun hm => (h '\r' hm).2.2.1 rfl)
  rw [htmlToText, hn]
  exact htmlToTextAux_of_plain l.length l (Nat.le_refl _)
    (fun c hc => ⟨(h c hc).1, (h c hc).2.1, (h c hc).2.2.2⟩)

/-! ## Claim theorems -/

/-- C8: URL classification is total and a trichotomy: a URL matched by
the review-page regex (the fixed path followed by ten uppercase
alphanumerics) classifies as `review` with exactly the captured
ten-character ASIN — irrespective of the product regex, since the review
regex is tried strictly first — and a URL matching neither regex
classifies as `other` with a null ASIN. -/
theorem c8_classification_trichotomy (url : List Char) :
    (∀ id, reviewMatch url = some id →
      getPageInfo url = ⟨.review, some id⟩ ∧
        id.length = 10 ∧ id.all isAsinChar = true) ∧
    (reviewMatch url = none → productMatch url = none →
      getPageInfo url = ⟨.other, none⟩) := by
  constructor
  · intro id h
    refine ⟨by simp [getPageInfo, h], ?_⟩
    unfold reviewMatch at h
    split at h
    · simp only [matchTenAsin] at h
      split at h
      · rename_i hc
        injection h with h
        subst h
        exact hc
      · exact Option.noConfusion h
    · exact Option.noConfusion h
  · intro h1 h2
    simp [getPageInfo, h1, h2]

/-- C8 witness: a genuine review URL classifies as `review` with its
ASIN; a URL matching neither regex classifies as `other` with no ASIN. -/
theorem c8_classification_trichotomy_witness :
    (getPageInfo "https://www.amazon.com/product-reviews/B0DLNYJ3YR".data =
        ⟨.review, some "B0DLNYJ3YR".data⟩ ∧
      ("B0DLNYJ3YR".data).length = 10 ∧
      ("B0DLNYJ3YR".data).all isAsinChar = true) ∧
    getPageInfo "https://www.google.com".data = ⟨.other, none⟩ :=
  ⟨(c8_classification_trichotomy _).1 "B0DLNYJ3YR".data (by decide),
   (c8_classification_trichotomy _).2 (by decide) (by decide)⟩

/-- C10: every review shown in the popup list is rendered as at most its
first 100 characters: unmodified when it has 100 characters or fewer,
otherwise its first 100 characters followed by an ellipsis. -/
theorem c10_review_truncation (reviews : List (List Char)) (r : List Char)
    (hr : r ∈ reviews.take 5) :
    reviewItemText r ∈ displayReviewItems reviews ∧
    (r.length ≤ 100 → reviewItemText r = r) ∧
    (100 < r.length → reviewItemText r = r.take 100 ++ "...".data) := by
  refine ⟨List.mem_map_of_mem _ hr, fun hle => ?_, fun hgt => ?_⟩
  · unfold reviewItemText
    rw [if_neg (by omega), List.append_nil, List.take_of_length_le hle]
  · unfold reviewItemText
    rw [if_pos hgt]

/-- C10 witness: a five-character review appears in the rendered list
unmodified. -/
theorem c10_review_truncation_witness :
    reviewItemText "short".data ∈ displayReviewItems ["short".data] ∧
    ("short".data.length ≤ 100 → reviewItemText "short".data = "short".data) ∧
    (100 < "short".data.length →
      reviewItemText "short".data = "short".data.take 100 ++ "...".data) :=
  c10_review_truncation ["short".data] "short".data (by decide)

/-- C9 counterexample: the renderer does not append a delta's text
verbatim when it contains markup-significant characters — appending the
five-character delta ampersand-a-m-p-semicolon to a surface holding "X"
yields the two-character text "X&" (the fragment parser decodes the
character reference), not the claimed concatenation. -/
theorem c9_markup_delta_rewritten :
    (displaySummaryStream "&amp;".data false (some ⟨true, "X".data⟩)).text =
      "X&".data ∧
    (displaySummaryStream "&amp;".data false (some ⟨true, "X".data⟩)).text ≠
      "X".data ++ "&amp;".data := by decide

/-- The renderer's HTML-fragment route is observable even without angle
brackets or ampersands: a CRLF inside a delta is displayed as a lone LF
(input-stream newline normalization) and a U+0000 character is dropped
(ignored by in-body tree construction). -/
theorem displaySummary_normalizes_cr_and_nul :
    (displaySummaryStream "a\r\nb".data false (some ⟨true, []⟩)).text =
      "a\nb".data ∧
    (displaySummaryStream "a\x00b".data false (some ⟨true, []⟩)).text =
      "ab".data := by decide

/-- C9 amended: for every delta free of the characters the HTML
fragment parser treats specially — left angle bracket, ampersand,
carriage return and U+0000 — and every prior state of the surface, a
non-first render appends exactly the delta's text: in order, nothing
reordered, deduplicated or dropped.  (A delta containing any of those
characters is instead parsed as a fragment: tags and entities are
interpreted per the counterexample, CR and CRLF are normalized to LF,
and NULs are dropped.) -/
theorem c9_plain_append (delta : List Char) (s : Option Surface)
    (h : ∀ c ∈ delta, c ≠ '<' ∧ c ≠ '&' ∧ c ≠ '\r' ∧ c ≠ '\x00') :
    (displaySummaryStream delta false s).text = surfText s ++ delta := by
  cases s with
  | none =>
    simp [displaySummaryStream, surfText, freshSurface, htmlToText_of_plain delta h]
  | some d =>
    simp [displaySummaryStream, surfText, htmlToText_of_plain delta h]

/-- C9 witness: appending the plain delta "AB" to a surface holding "X"
yields exactly "X" followed by "AB". -/
theorem c9_plain_append_witness :
    (displaySummaryStream "AB".data false (some ⟨true, "X".data⟩)).text =
      surfText (some ⟨true, "X".data⟩) ++ "AB".data :=
  c9_plain_append "AB".data (some ⟨true, "X".data⟩) (by decide)

/-- C5 counterexample: a retained line with leading whitespace before
the `data:` marker.  The line space-d-a-t-a-colon-X is retained (its
trimmed form starts with the marker), but the payload handed to
`JSON.parse` is `line.substring(5).trim()` = ":X", not the
marker-stripped-and-trimmed "X" the claim describes. -/
theorem c5_leading_ws_payload_differs :
    retainLine " data:X".data = true ∧
    lineJsonStr " data:X".data = ":X".data ∧
    specLinePayload " data:X".data = "X".data ∧
    lineJsonStr " data:X".data ≠ specLinePayload " data:X".data := by decide

/-- C5 amended: the decoder retains exactly the newline-separated lines
whose trimmed form starts with `data:`; the payload handed to the JSON
parser is the line with its first five characters removed and then
trimmed, which coincides with the marker-stripped-and-trimmed payload
exactly for retained lines with no leading whitespace before the
marker. -/
theorem c5_payload_for_marker_led_lines :
    (∀ chunk, retainedLines chunk =
      (splitNl chunk).filter (fun l => dataMarker.isPrefixOf (jsTrim l))) ∧
    (∀ line, dataMarker.isPrefixOf line = true →
      lineJsonStr line = specLinePayload line) := by
  refine ⟨fun chunk => rfl, fun line h => ?_⟩
  obtain ⟨t, rfl⟩ := List.isPrefixOf_iff_prefix.mp h
  have hmark : dataMarker ++ t = 'd' :: ("ata:".data ++ t) := rfl
  have htl : trimLeft (dataMarker ++ t) = dataMarker ++ t := by
    rw [hmark, trimLeft, List.dropWhile_cons, if_neg (by decide)]
  have hdrop : (dataMarker ++ t).drop 5 = t := List.drop_left' rfl
  simp only [lineJsonStr, specLinePayload]
  rw [htl, if_pos (List.isPrefixOf_iff_prefix.mpr (List.prefix_append _ _)), hdrop]

/-- C5 amended witness: for the line d-a-t-a-colon-space-X (no leading
whitespace) the code's payload and the spec's payload coincide. -/
theorem c5_payload_for_marker_led_lines_witness :
    lineJsonStr "data: X".data = specLinePayload "data: X".data :=
  c5_payload_for_marker_led_lines.2 "data: X".data (by decide)

/-- Rendering a first chunk clears the surface and shows it, whatever
state (or absence) the surface was in before. -/
theorem displayFirstChunk (c : List Char) (s : Option Surface) :
    displaySummaryStream c true s = ⟨true, htmlToText c⟩ := by
  simp [displaySummaryStream]

/-- The three SSE frames of C1, one decoded chunk each. -/
def frameA : List Char :=
  "data: \x7b\"choices\":[\x7b\"delta\":\x7b\"content\":\"A\"\x7d\x7d]\x7d\n\n".data

def frameB : List Char :=
  "data: \x7b\"choices\":[\x7b\"delta\":\x7b\"content\":\"B\"\x7d\x7d]\x7d\n\n".data

def frameDone : List Char := "data: [DONE]\n\n".data

def c1Stream : List (List Char) := [frameA, frameB, frameDone]

/-- C1: on the stream of frames carrying deltas "A", "B" and then the
`[DONE]` sentinel, the stream loop invokes the renderer exactly twice —
"A" with `isFirst = true`, then "B" with `isFirst = false` — and the
displayed summary text afterwards is exactly "AB", whatever state the
summary surface started in. -/
theorem c1_stream_renders_ab :
    decodeStream c1Stream = [("A".data, true), ("B".data, false)] ∧
    ∀ s₀ : Option Surface,
      surfText (runRender (decodeStream c1Stream) s₀) = "AB".data := by
  have hdec : decodeStream c1Stream = [("A".data, true), ("B".data, false)] := by
    decide
  refine ⟨hdec, fun s₀ => ?_⟩
  rw [hdec, runRender]
  simp only [List.foldl]
  rw [displayFirstChunk]
  decide

/-- The `[DONE]` sentinel frame and a content frame, as separate decoded
chunks and merged into one chunk. -/
def doneChunk : List Char := "data: [DONE]\n".data

def frameX : List Char :=
  "data: \x7b\"choices\":[\x7b\"delta\":\x7b\"content\":\"X\"\x7d\x7d]\x7d\n".data

/-- C4 (code bug): the `break` on the `[DONE]` sentinel only leaves the
per-chunk frame loop, so the sentinel silences the rest of its own chunk
but is forgotten at the next chunk: with the sentinel and a content
frame in separate chunks the delta "X" is still emitted afterwards,
while the same two lines inside one chunk emit nothing. -/
theorem c4_sentinel_confined_to_its_chunk :
    decodeStream [doneChunk, frameX] = [("X".data, true)] ∧
    decodeStream [doneChunk ++ frameX] = [] := by decide

/-- C2: a line with malformed JSON is swallowed without aborting —
wherever it occurs in a stream the frame loop treats it as if it were
absent — and in particular, between two well-formed content frames the
deltas of the frame before and the frame after are both still emitted,
in order, with their `isFirst` flags untouched by the corrupt line. -/
theorem c2_malformed_line_swallowed
    (l1 lm l2 c1 c2 : List Char)
    (h1nl : '\n' ∉ l1) (hmnl : '\n' ∉ lm) (h2nl : '\n' ∉ l2)
    (hr1 : retainLine l1 = true) (hrm : retainLine lm = true)
    (hr2 : retainLine l2 = true)
    (h1 : payloadContent (lineJsonStr l1) = some c1)
    (hm : parseJson (lineJsonStr lm) = none)
    (hmd : lineJsonStr lm ≠ doneToken)
    (h2 : payloadContent (lineJsonStr l2) = some c2) :
    (∀ (isF : Bool) (rest : List (List Char)),
      processLines isF (lm :: rest) = processLines isF rest) ∧
    decodeStream [l1 ++ '\n' :: (lm ++ '\n' :: l2)] = [(c1, true), (c2, false)] := by
  have hdn : payloadContent doneToken = none := by decide
  have hd1 : lineJsonStr l1 ≠ doneToken := by
    intro hd
    rw [hd, hdn] at h1
    exact Option.noConfusion h1
  have hd2 : lineJsonStr l2 ≠ doneToken := by
    intro hd
    rw [hd, hdn] at h2
    exact Option.noConfusion h2
  have hpm : payloadContent (lineJsonStr lm) = none := by
    simp [payloadContent, hm]
  have hret : retainedLines (l1 ++ '\n' :: (lm ++ '\n' :: l2)) = [l1, lm, l2] := by
    unfold retainedLines
    rw [splitNl_append_cons l1 _ h1nl, splitNl_append_cons lm _ hmnl,
      splitNl_no_nl l2 h2nl]
    simp [List.filter_cons, hr1, hrm, hr2]
  constructor
  · intro isF rest
    simp only [processLines, if_neg hmd, hpm]
  · simp only [decodeStream, decodeChunks, hret]
    simp only [processLines, if_neg hd1, if_neg hmd, if_neg hd2, h1, hpm, h2]
    simp

/-- C2 witness: a concrete corrupt line between the "A" and "B" frames
is swallowed and both deltas still arrive in order. -/
theorem c2_malformed_line_swallowed_witness :
    decodeStream
      ["data: \x7b\"choices\":[\x7b\"delta\":\x7b\"content\":\"A\"\x7d\x7d]\x7d".data ++
        '\n' :: ("data: \x7boops".data ++
          '\n' :: "data: \x7b\"choices\":[\x7b\"delta\":\x7b\"content\":\"B\"\x7d\x7d]\x7d".data)] =
      [("A".data, true), ("B".data, false)] :=
  (c2_malformed_line_swallowed
    "data: \x7b\"choices\":[\x7b\"delta\":\x7b\"content\":\"A\"\x7d\x7d]\x7d".data
    "data: \x7boops".data
    "data: \x7b\"choices\":[\x7b\"delta\":\x7b\"content\":\"B\"\x7d\x7d]\x7d".data
    "A".data "B".data (by decide) (by decide) (by decide)
    (by decide) (by decide) (by decide) (by decide) rfl (by decide)
    (by decide)).2

/-- C3: whenever the review set is non-empty — so the handler enters its
Running phase — the button ends every run re-enabled with its idle label
restored, on all exit paths (missing credential, fetch rejection,
non-2xx response, unreadable body, and normal stream exhaustion), thanks
to the explicit restore in the missing-key branch and the `finally`
block everywhere else. -/
theorem c3_button_restored_on_all_paths (e : Env) (h : hasReviews e = true) :
    finalDisabled (clickHandler e) = false ∧
    finalLabel (clickHandler e) = idleLabel := by
  unfold clickHandler
  rw [if_pos h]
  cases e.apiKey with
  | none => exact ⟨finalDisabled_restore _, finalLabel_restore _⟩
  | some k => exact ⟨finalDisabled_restore _, finalLabel_restore _⟩

/-- C3 witness: a run with one review and a network error ends with the
button enabled and the idle label. -/
theorem c3_button_restored_on_all_paths_witness :
    hasReviews ⟨some ["r".data], some "k".data, .netErr []⟩ = true ∧
    (finalDisabled (clickHandler ⟨some ["r".data], some "k".data, .netErr []⟩) = false ∧
      finalLabel (clickHandler ⟨some ["r".data], some "k".data, .netErr []⟩) = idleLabel) :=
  ⟨by decide, c3_button_restored_on_all_paths _ (by decide)⟩

/-- C6: with an empty or absent review set the handler reports the
"no reviews" error, never writes to the button (no disable, no label
change — it never enters Running), and issues no network request. -/
theorem c6_no_reviews_stays_idle (e : Env) (h : hasReviews e = false) :
    (clickHandler e).popupText = some noReviewsMsg ∧
    (clickHandler e).disabledWrites = [] ∧
    (clickHandler e).labelWrites = [] ∧
    (clickHandler e).fetchCount = 0 := by
  unfold clickHandler
  rw [if_neg (by simp [h])]
  exact ⟨rfl, rfl, rfl, rfl⟩

/-- C6 witness: an empty review set produces the "no reviews" report
with no button writes and no fetch. -/
theorem c6_no_reviews_stays_idle_witness :
    (clickHandler ⟨some [], some "k".data, .netErr []⟩).popupText = some noReviewsMsg ∧
    (clickHandler ⟨some [], some "k".data, .netErr []⟩).disabledWrites = [] ∧
    (clickHandler ⟨some [], some "k".data, .netErr []⟩).labelWrites = [] ∧
    (clickHandler ⟨some [], some "k".data, .netErr []⟩).fetchCount = 0 :=
  c6_no_reviews_stays_idle _ (by decide)

/-- C7: with reviews present but no stored API key, the handler reports
the missing-credential error, issues no network request, and returns to
the idle button state. -/
theorem c7_missing_key_short_circuits (e : Env) (h : hasReviews e = true)
    (hk : e.apiKey = none) :
    (clickHandler e).popupText = some keyMissingMsg ∧
    (clickHandler e).fetchCount = 0 ∧
    finalDisabled (clickHandler e) = false ∧
    finalLabel (clickHandler e) = idleLabel := by
  unfold clickHandler
  rw [if_pos h, hk]
  exact ⟨rfl, rfl, finalDisabled_restore _, finalLabel_restore _⟩

/-- C7 witness: one review and an absent key yield the
missing-credential report, zero fetches, and an idle button. -/
theorem c7_missing_key_short_circuits_witness :
    (clickHandler ⟨some ["r".data], none, .netErr []⟩).popupText = some keyMissingMsg ∧
    (clickHandler ⟨some ["r".data], none, .netErr []⟩).fetchCount = 0 ∧
    finalDisabled (clickHandler ⟨some ["r".data], none, .netErr []⟩) = false ∧
    finalLabel (clickHandler ⟨some ["r".data], none, .netErr []⟩) = idleLabel :=
  c7_missing_key_short_circuits _ (by decide) rfl

end ReviewSummarizer
